import Mathlib

/-!
Verification of the GitMate frontend (Next.js client in `frontend/`) against its
natural-language specification.

The definitions below are a shallow embedding of the TypeScript source:

* `frontend/lib/api.ts` — the API client (`apiCall`, `getErrorMessage`,
  `sendChatMessage`, `analyzeProjectParams`, `getFunctionReferences`,
  `getFunctionCalls`);
* `frontend/app/dashboard/project/[id]/chart/page.tsx` — the chat page
  (`handleSubmitTurn`, `chatStep`, `applySessionOp`);
* `frontend/middleware.ts` and the dashboard layout — (`middlewareRedirect`,
  `matcherExcluded`, `dashboardLayoutRedirect`);
* the backend retrieval layer, which is not part of the frontend sources, is
  modelled from the spec where a claim needs it (`refsEndpoint`,
  `callsEndpoint`, `searchVectorIndex`).

JavaScript strings are embedded as Lean `String`; request paths, which the
middleware inspects character by character, are embedded as `List Char`.
-/

namespace GitMate

/-- A chat message as in `types/index.ts` (`ChatMessage`); the model keeps the
`role` and `content` fields, dropping the client-side `id` and `timestamp`
which no claim mentions. -/
structure ChatMessageM where
  role : String
  content : String
deriving DecidableEq

/-- The `ApiResponse<T>` shape from `types/index.ts`: `success`, optional
`data`, optional `error`. -/
structure ApiResponseM (α : Type) where
  success : Bool
  data : Option α
  error : Option String
deriving DecidableEq

/-- The values that can reach the `catch` blocks of `lib/api.ts`: an axios
error (carrying `response.data.detail`, `response.data.message` and
`error.message`), a plain JavaScript `Error`, or any other thrown value. -/
inductive JsError where
  | axiosError (detail dataMessage : Option String) (message : String)
  | jsError (message : String)
  | other
deriving DecidableEq

/-- JavaScript `a || b` on an optional string: `undefined` and `""` are falsy
and fall through to `b`. -/
def jsOrString (a : Option String) (b : String) : String :=
  match a with
  | some s => if s = "" then b else s
  | none => b

/-- `getErrorMessage` from `lib/api.ts` lines 362-370:
`detail || message || error.message` for axios errors, `error.message` for
`Error` instances, and a fixed fallback otherwise. -/
def getErrorMessage : JsError → String
  | .axiosError detail dataMessage message =>
      jsOrString detail (jsOrString dataMessage message)
  | .jsError message => message
  | .other => "An unexpected error occurred"

/-- The `try`/`catch` wrapper shared by every exported function of
`lib/api.ts`: a successful await becomes `{success: true, data}`, any thrown
value becomes `{success: false, error: getErrorMessage(e)}`. -/
def apiCall {α : Type} (outcome : Except JsError α) : ApiResponseM α :=
  match outcome with
  | .ok a => { success := true, data := some a, error := none }
  | .error e => { success := false, data := none, error := some (getErrorMessage e) }

/-- Events observable while `sendChatMessage` (lines 292-308 of `lib/api.ts`)
consumes the response stream: the i-th call to `reader.read()` that yields a
chunk, a call to the caller's `onChunk` with a decoded chunk, and the final
`read()` that reports `done`. -/
inductive StreamEvent where
  | read (i : Nat)
  | emit (chunk : String)
  | readDone
deriving DecidableEq

/-- The event trace of the `while (true)` loop of `sendChatMessage`, reading a
stream whose decoded chunks are `chunks`, with `i` the index of the next read:
each iteration reads one chunk, appends it to `fullContent`, and passes it to
`onChunk`; the loop ends on the read that reports `done`. -/
def streamTrace : List String → Nat → List StreamEvent
  | [], _ => [.readDone]
  | c :: rest, i => .read i :: .emit c :: streamTrace rest (i + 1)

/-- The chunks delivered to the caller's `onChunk` callback, in trace order. -/
def emittedChunks (chunks : List String) : List String :=
  (streamTrace chunks 0).filterMap fun e =>
    match e with
    | .emit s => some s
    | _ => none

/-- `sendChatMessage` from `lib/api.ts` lines 269-322, as a function of the
transport outcome: `ok` is `response.ok`, `body` is the stream's decoded chunk
list (`none` when `response.body` is undefined, in which case the loop is
skipped).  On `!response.ok` the function throws `Error("Failed to send
message")`, which the `catch` turns into a failure response; otherwise it
accumulates `fullContent` across the chunks and returns an assistant message
holding it. -/
def sendChatMessage (ok : Bool) (body : Option (List String)) :
    ApiResponseM ChatMessageM :=
  if ok then
    { success := true
      data := some
        { role := "assistant"
          content := (body.getD []).foldl (fun fullContent chunk => fullContent ++ chunk) "" }
      error := none }
  else
    apiCall (.error (.jsError "Failed to send message"))

/-- Content of the assistant message the chat page appends when a turn fails
(`page.tsx` lines 1210-1216). -/
def errorReplyContent (err : Option String) : String :=
  "Sorry, I encountered an error: " ++ err.getD "Unknown error" ++ ". Please try again."

/-- The message-list effect of one chat turn of `handleSubmit` (`page.tsx`
lines 1174-1221), after the guard has passed: append the trimmed user message,
then either the assistant message carrying `result.data.content` (when
`result.success && result.data`) or the explicit error reply. -/
def handleSubmitTurn (msgs : List ChatMessageM) (input : String)
    (res : ApiResponseM ChatMessageM) : List ChatMessageM :=
  let afterUser := msgs ++ [{ role := "user", content := input.trim }]
  match res.success, res.data with
  | true, some d => afterUser ++ [{ role := "assistant", content := d.content }]
  | _, _ => afterUser ++ [{ role := "assistant", content := errorReplyContent res.error }]

/-- The concurrency-relevant part of the chat page's state: the `isLoading`
flag, plus a ghost counter of turns started but not yet completed. -/
structure ChatTurnState where
  isLoading : Bool
  activeTurns : Nat
deriving DecidableEq

/-- Events of the chat page relevant to turn interleaving: a submit attempt
(via the form's onSubmit or the Enter key, both of which call `handleSubmit`),
with `inputNonempty` recording whether `input.trim()` is nonempty, and the
completion of an in-flight turn (the tail of `handleSubmit`, which runs
`setIsLoading(false)`). -/
inductive ChatEvent where
  | submit (inputNonempty : Bool)
  | complete
deriving DecidableEq

/-- One step of the chat page: `handleSubmit` returns early without starting a turn
when the input is blank or `isLoading` is set (`page.tsx` line 1176); otherwise
it sets `isLoading` and starts a turn.  A completion clears `isLoading`. -/
def chatStep (s : ChatTurnState) : ChatEvent → ChatTurnState
  | .submit ne =>
      if ne && !s.isLoading then
        { isLoading := true, activeTurns := s.activeTurns + 1 }
      else s
  | .complete =>
      if s.activeTurns = 0 then s
      else { isLoading := false, activeTurns := s.activeTurns - 1 }

/-- The chat page mounts with no turn in flight. -/
def initialTurnState : ChatTurnState := { isLoading := false, activeTurns := 0 }

/-- The state after a sequence of submit/complete events. -/
def runChatEvents (evs : List ChatEvent) : ChatTurnState :=
  evs.foldl chatStep initialTurnState

/-- The updates the chat page ever applies to its message list: `initChat`
appending the loaded history when the request succeeded and it is nonempty
(`page.tsx` lines 1152-1161), and a chat turn, which is a no-op when the
trimmed input is blank (the `handleSubmit` guard). -/
inductive SessionOp where
  | loadHistory (ok : Bool) (history : List ChatMessageM)
  | chatTurn (input : String) (res : ApiResponseM ChatMessageM)

/-- Apply one session operation to the message list. -/
def applySessionOp (msgs : List ChatMessageM) : SessionOp → List ChatMessageM
  | .loadHistory ok history =>
      if ok && decide (0 < history.length) then msgs ++ history else msgs
  | .chatTurn input res =>
      if input.trim = "" then msgs else handleSubmitTurn msgs input res

/-- Run a sequence of session operations from an initial message list. -/
def runSession (msgs : List ChatMessageM) (ops : List SessionOp) : List ChatMessageM :=
  ops.foldl applySessionOp msgs

/-- The options accepted by `analyzeProject` in `lib/api.ts` lines 80-99. -/
structure AnalyzeOptions where
  skipLsp : Bool
  skipLlmAnalysis : Bool
deriving DecidableEq

/-- The query parameters `analyzeProject` appends to the analyze request:
`skip_lsp=true` when `options.skipLsp`, `skip_llm_analysis=true` when
`options.skipLlmAnalysis`. -/
def analyzeProjectParams (o : AnalyzeOptions) : List (String × String) :=
  (if o.skipLsp then [("skip_lsp", "true")] else []) ++
    (if o.skipLlmAnalysis then [("skip_llm_analysis", "true")] else [])

/-- The options the dashboard's Analyze/Retry action passes:
`handleAnalyzeProject` calls `analyzeProject(projectId, userId,
{ skipLsp: true })`. -/
def dashboardAnalyzeOptions : AnalyzeOptions :=
  { skipLsp := true, skipLlmAnalysis := false }

/-- The query parameters of the analysis request issued by the dashboard's
Analyze/Retry action. -/
def dashboardAnalyzeParams : List (String × String) :=
  analyzeProjectParams dashboardAnalyzeOptions

/-- `ReferenceInfo` from `types/index.ts`. -/
structure ReferenceInfoM where
  filePath : String
  line : Nat
  column : Nat
deriving DecidableEq

/-- `CallInfo` from `types/index.ts`. -/
structure CallInfoM where
  name : String
  filePath : String
  line : Nat
deriving DecidableEq

/-- Outcome of a backend direct-lookup endpoint: HTTP 200 with a result list,
or an error response carrying a detail string. -/
inductive LookupResult (α : Type) where
  | ok (results : List α)
  | notFoundError (detail : String)

/-- Modelled from the spec: the backend `/refs/<name>` endpoint is not among
the frontend sources; per the spec, an unresolvable name "yields an explicit
entity-not-found response, never a silent empty result", while a resolved name
returns its (possibly empty) reference list. -/
def refsEndpoint (resolves : Bool) (results : List ReferenceInfoM) :
    LookupResult ReferenceInfoM :=
  if resolves then .ok results else .notFoundError "Entity not found"

/-- Modelled from the spec: the backend `/calls/<name>` endpoint, analogous to
`refsEndpoint`. -/
def callsEndpoint (resolves : Bool) (results : List CallInfoM) :
    LookupResult CallInfoM :=
  if resolves then .ok results else .notFoundError "Entity not found"

/-- `getFunctionReferences` from `lib/api.ts` lines 149-163: a 2xx response
yields `{success: true, data: response.data.results}`; an error status makes
axios throw, and the `catch` returns `{success: false, error:
getErrorMessage(e)}` where the axios error carries the endpoint's detail. -/
def getFunctionReferences (r : LookupResult ReferenceInfoM) :
    ApiResponseM (List ReferenceInfoM) :=
  match r with
  | .ok rs => { success := true, data := some rs, error := none }
  | .notFoundError d =>
      apiCall (.error (.axiosError (some d) none "Request failed with status code 404"))

/-- `getFunctionCalls` from `lib/api.ts` lines 165-179, same shape as
`getFunctionReferences`. -/
def getFunctionCalls (r : LookupResult CallInfoM) :
    ApiResponseM (List CallInfoM) :=
  match r with
  | .ok rs => { success := true, data := some rs, error := none }
  | .notFoundError d =>
      apiCall (.error (.axiosError (some d) none "Request failed with status code 404"))

/-- Modelled from the spec: a `VectorRecord` of the backend `VectorIndex`
(`{entityId, embeddingVector, ...}`); embedding vectors are modelled with
integer components, the claims at issue being about ordering and cardinality,
not float arithmetic. -/
structure VectorRecordM where
  entityId : String
  vec : List Int
deriving DecidableEq

/-- Inner product of two embedding vectors. -/
def dotProduct : List Int → List Int → Int
  | a :: as, b :: bs => a * b + dotProduct as bs
  | _, _ => 0

/-- The ranking used by `search`: descending score, ties broken by ascending
entity id. -/
def searchLE (a b : String × Int) : Bool :=
  decide (b.2 < a.2) || (a.2 == b.2 && decide (a.1 ≤ b.1))

/-- Modelled from the spec: `VectorIndex.search(queryText, k)` — "embeds the
query, returns the k nearest records by similarity (… inner-product …),
ordered by descending score, ties broken by entity id for determinism".
`embed` stands for the external embedding service. -/
def searchVectorIndex (embed : String → List Int) (idx : List VectorRecordM)
    (q : String) (k : Nat) : List (String × Int) :=
  ((idx.map fun r => (r.entityId, dotProduct (embed q) r.vec)).mergeSort searchLE).take k

/-- The characters of the JavaScript string `"/dashboard"`, the path tested by
`middleware.ts` line 5. -/
def dashboardPathChars : List Char :=
  ['/', 'd', 'a', 's', 'h', 'b', 'o', 'a', 'r', 'd']

/-- The characters of `"/"`, the redirect target of the middleware and of the
dashboard layout. -/
def rootPathChars : List Char := ['/']

/-- JavaScript `String.prototype.startsWith`, on paths embedded as character
lists. -/
def charsPrefixOf : List Char → List Char → Bool
  | [], _ => true
  | _ :: _, [] => false
  | a :: as, b :: bs => a == b && charsPrefixOf as bs

/-- The auth middleware of `middleware.ts` lines 3-10: a request to a path
starting with `/dashboard` without a session is answered with a redirect to
`/`; every other request passes through (the handler returns undefined). -/
def middlewareRedirect (path : List Char) (isLoggedIn : Bool) : Option (List Char) :=
  if charsPrefixOf dashboardPathChars path && !isLoggedIn then some rootPathChars
  else none

/-- The middleware `config.matcher`
`"/((?!api|_next/static|_next/image|favicon.ico).*)"`: the middleware is
skipped exactly when the part of the path after the leading `/` starts with
one of the four excluded strings. -/
def matcherExcluded (path : List Char) : Bool :=
  let rest := path.drop 1
  charsPrefixOf ['a', 'p', 'i'] rest ||
    charsPrefixOf ['_', 'n', 'e', 'x', 't', '/', 's', 't', 'a', 't', 'i', 'c'] rest ||
    charsPrefixOf ['_', 'n', 'e', 'x', 't', '/', 'i', 'm', 'a', 'g', 'e'] rest ||
    charsPrefixOf ['f', 'a', 'v', 'i', 'c', 'o', 'n', '.', 'i', 'c', 'o'] rest

/-- The dashboard layout (`app/dashboard/layout.tsx`): `await auth()`, and
`redirect("/")` when there is no session user; otherwise it renders its
children (`none`). -/
def dashboardLayoutRedirect (hasUser : Bool) : Option (List Char) :=
  if !hasUser then some rootPathChars else none

/-- Invariant of the chat page's turn state: never more than one turn in
flight, and none at all while `isLoading` is cleared. -/
def TurnInv (s : ChatTurnState) : Prop :=
  s.activeTurns ≤ 1 ∧ (s.isLoading = false → s.activeTurns = 0)

/-- The errors the program's transports actually raise all carry a nonempty
message (axios network/status errors, fetch type errors, and the explicit
`Error("Failed to send message")`). -/
def errMessageNonempty : JsError → Prop
  | .axiosError _ _ message => message ≠ ""
  | .jsError message => message ≠ ""
  | .other => True

/-! ### Lemmas about the streaming loop -/

theorem streamTrace_read_pos (cs : List String) (k i : Nat) (h : i < cs.length) :
    (streamTrace cs k)[2 * i]? = some (StreamEvent.read (k + i)) := by
  induction cs generalizing k i with
  | nil => simp at h
  | cons c rest ih =>
    match i with
    | 0 => simp [streamTrace]
    | j + 1 =>
      have hj : j < rest.length := by simpa using Nat.lt_of_succ_lt_succ h
      have heq : 2 * (j + 1) = 2 * j + 1 + 1 := by omega
      have := ih (k + 1) j hj
      rw [show k + 1 + j = k + (j + 1) from by omega] at this
      simpa [streamTrace, heq] using this

theorem streamTrace_emit_pos (cs : List String) (k i : Nat) (h : i < cs.length) :
    ∃ c, cs[i]? = some c ∧ (streamTrace cs k)[2 * i + 1]? = some (StreamEvent.emit c) := by
  induction cs generalizing k i with
  | nil => simp at h
  | cons c rest ih =>
    match i with
    | 0 => exact ⟨c, by simp, by simp [streamTrace]⟩
    | j + 1 =>
      have hj : j < rest.length := by simpa using Nat.lt_of_succ_lt_succ h
      have heq : 2 * (j + 1) + 1 = 2 * j + 1 + 1 + 1 := by omega
      obtain ⟨x, hx, hpos⟩ := ih (k + 1) j hj
      exact ⟨x, by simpa using hx, by simpa [streamTrace, heq] using hpos⟩

theorem streamTrace_done_pos (cs : List String) (k : Nat) :
    (streamTrace cs k)[2 * cs.length]? = some StreamEvent.readDone := by
  induction cs generalizing k with
  | nil => simp [streamTrace]
  | cons c rest ih =>
    have heq : 2 * (rest.length + 1) = 2 * rest.length + 1 + 1 := by omega
    simpa [streamTrace, heq] using ih (k + 1)

theorem emittedChunks_eq (cs : List String) : emittedChunks cs = cs := by
  have aux : ∀ (l : List String) (k : Nat),
      (streamTrace l k).filterMap (fun e =>
        match e with
        | StreamEvent.emit s => some s
        | _ => none) = l := by
    intro l
    induction l with
    | nil => intro k; simp [streamTrace]
    | cons c rest ih => intro k; simp [streamTrace, ih]
  simpa [emittedChunks] using aux cs 0

/-- Claim C1: in every chat turn with a streamed response body, the trace of
`sendChatMessage`'s read loop delivers chunk `i` to the caller's `onChunk`
(position `2*i+1`) strictly before the read that obtains chunk `i+1`
(position `2*(i+1)`), and strictly before the read that exhausts the stream
(position `2*length`), so the full answer is never buffered before the first
chunk is delivered. -/
theorem chunk_emitted_before_next_read (cs : List String) (i : Nat)
    (h : i + 1 < cs.length) :
    (∃ c, cs[i]? = some c ∧
      (streamTrace cs 0)[2 * i + 1]? = some (StreamEvent.emit c)) ∧
    (streamTrace cs 0)[2 * (i + 1)]? = some (StreamEvent.read (i + 1)) ∧
    2 * i + 1 < 2 * (i + 1) ∧
    (streamTrace cs 0)[2 * cs.length]? = some StreamEvent.readDone ∧
    2 * (i + 1) < 2 * cs.length := by
  refine ⟨streamTrace_emit_pos cs 0 i (Nat.lt_of_succ_lt h), ?_, by omega,
    streamTrace_done_pos cs 0, by omega⟩
  simpa using streamTrace_read_pos cs 0 (i + 1) h

theorem chunk_emitted_before_next_read_witness :
    (0 + 1 < (["Hel", "lo"] : List String).length) ∧
    ((∃ c, (["Hel", "lo"] : List String)[0]? = some c ∧
        (streamTrace ["Hel", "lo"] 0)[2 * 0 + 1]? = some (StreamEvent.emit c)) ∧
      (streamTrace ["Hel", "lo"] 0)[2 * (0 + 1)]? = some (StreamEvent.read (0 + 1)) ∧
      2 * 0 + 1 < 2 * (0 + 1) ∧
      (streamTrace ["Hel", "lo"] 0)[2 * (["Hel", "lo"] : List String).length]? =
        some StreamEvent.readDone ∧
      2 * (0 + 1) < 2 * (["Hel", "lo"] : List String).length) :=
  ⟨by decide, chunk_emitted_before_next_read ["Hel", "lo"] 0 (by decide)⟩

/-- Claim C5: a successfully completed chat turn appends to the history an
assistant message whose `role` is `"assistant"` and whose `content` is the
concatenation, in arrival order, of exactly the chunks that were streamed to
the caller's `onChunk` during the turn. -/
theorem completed_turn_appends_streamed_concat (msgs : List ChatMessageM)
    (input : String) (cs : List String) :
    emittedChunks cs = cs ∧
    sendChatMessage true (some cs) =
      { success := true
        data := some { role := "assistant", content := String.join (emittedChunks cs) }
        error := none } ∧
    handleSubmitTurn msgs input (sendChatMessage true (some cs)) =
      msgs ++ [{ role := "user", content := input.trim },
        { role := "assistant", content := String.join (emittedChunks cs) }] := by
  refine ⟨emittedChunks_eq cs, ?_, ?_⟩
  · simp [sendChatMessage, emittedChunks_eq, String.join]
  · simp [handleSubmitTurn, sendChatMessage, emittedChunks_eq, String.join]

/-- Claim C2, counterexample: a chat turn whose response is OK but whose body
streams no chunks terminates with an assistant message of empty content — a
silently empty answer, not an explicit error message. -/
theorem empty_stream_turn_ends_with_empty_assistant_answer :
    handleSubmitTurn [] "hi" (sendChatMessage true (some [])) =
      [{ role := "user", content := "hi".trim }, { role := "assistant", content := "" }] ∧
    (handleSubmitTurn [] "hi" (sendChatMessage true (some []))).getLast? =
      some { role := "assistant", content := "" } := by
  constructor <;> simp [handleSubmitTurn, sendChatMessage]

theorem errorReplyContent_ne_empty (err : Option String) : errorReplyContent err ≠ "" := by
  intro hc
  have := congrArg String.length hc
  simp [errorReplyContent, String.length_append] at this
  exact absurd this.1.1 (by decide)

/-- Claim C2, amended: whenever `sendChatMessage` reports failure
(`success = false`), the chat turn appends an assistant message carrying an
explicit, nonempty error text; but a turn whose stream yields no chunks
succeeds with an empty assistant answer. -/
theorem failed_turn_appends_explicit_error (msgs : List ChatMessageM)
    (input : String) (res : ApiResponseM ChatMessageM) (h : res.success = false) :
    handleSubmitTurn msgs input res =
      msgs ++ [{ role := "user", content := input.trim },
        { role := "assistant", content := errorReplyContent res.error }] ∧
    errorReplyContent res.error ≠ "" := by
  refine ⟨?_, errorReplyContent_ne_empty res.error⟩
  rcases res with ⟨s, d, err⟩
  cases h
  cases d <;> simp [handleSubmitTurn]

theorem failed_turn_appends_explicit_error_witness :
    ({ success := false, data := none, error := some "boom" } :
      ApiResponseM ChatMessageM).success = false ∧
    (handleSubmitTurn [] "hi"
        { success := false, data := none, error := some "boom" } =
      [] ++ [{ role := "user", content := "hi".trim },
        { role := "assistant", content := errorReplyContent (some "boom") }] ∧
      errorReplyContent (some "boom") ≠ "") :=
  ⟨rfl, failed_turn_appends_explicit_error [] "hi"
    { success := false, data := none, error := some "boom" } rfl⟩

/-- Claim C3, counterexample: the analysis request issued by the dashboard's
Analyze/Retry action carries the `skip_lsp=true` query parameter, so it does
not enable language-server enrichment. -/
theorem dashboard_analyze_sets_skip_lsp :
    ("skip_lsp", "true") ∈ dashboardAnalyzeParams := by
  decide

/-- Claim C3, amended: the analysis request issued by the dashboard's
Analyze/Retry action disables language-server-based enrichment — its only
query parameter is `skip_lsp=true`. -/
theorem dashboard_analyze_params_eq :
    dashboardAnalyzeParams = [("skip_lsp", "true")] := by
  decide

/-! ### Turn serialization -/

theorem chatStep_preserves_TurnInv (s : ChatTurnState) (e : ChatEvent)
    (h : TurnInv s) : TurnInv (chatStep s e) := by
  obtain ⟨h1, h2⟩ := h
  cases e with
  | submit ne =>
    by_cases hc : (ne && !s.isLoading) = true
    · have hload : s.isLoading = false := by
        rcases Bool.and_eq_true_iff.mp hc with ⟨_, hnot⟩
        simpa using hnot
      have hz : s.activeTurns = 0 := h2 hload
      simp [chatStep, hc, TurnInv, hz]
    · simp only [chatStep, hc, if_neg]
      exact ⟨h1, h2⟩
  | complete =>
    by_cases hz : s.activeTurns = 0
    · simp only [chatStep, hz, if_pos]
      exact ⟨h1, h2⟩
    · have : s.activeTurns = 1 := by omega
      simp [chatStep, hz, TurnInv, this]

theorem foldl_chatStep_TurnInv :
    ∀ (evs : List ChatEvent) (s : ChatTurnState), TurnInv s →
      TurnInv (evs.foldl chatStep s)
  | [], _, h => h
  | e :: evs, s, h =>
      foldl_chatStep_TurnInv evs (chatStep s e) (chatStep_preserves_TurnInv s e h)

/-- Claim C4: at most one chat turn is ever in progress — after any sequence
of submit/complete events the number of in-flight turns is at most one, and a
submit taken while `isLoading` is set (streaming not yet completed) leaves the
state unchanged, starting no new turn. -/
theorem at_most_one_turn_in_progress (evs : List ChatEvent)
    (s : ChatTurnState) (ne : Bool) (h : s.isLoading = true) :
    (runChatEvents evs).activeTurns ≤ 1 ∧
    chatStep s (ChatEvent.submit ne) = s := by
  constructor
  · exact (foldl_chatStep_TurnInv evs initialTurnState (by simp [TurnInv, initialTurnState])).1
  · simp [chatStep, h]

theorem at_most_one_turn_in_progress_witness :
    (ChatTurnState.mk true 1).isLoading = true ∧
    ((runChatEvents [ChatEvent.submit true, ChatEvent.submit true,
        ChatEvent.complete]).activeTurns ≤ 1 ∧
      chatStep ⟨true, 1⟩ (ChatEvent.submit true) = ⟨true, 1⟩) :=
  ⟨rfl, at_most_one_turn_in_progress
    [ChatEvent.submit true, ChatEvent.submit true, ChatEvent.complete] ⟨true, 1⟩ true rfl⟩

/-! ### Append-only history -/

theorem handleSubmitTurn_append (msgs : List ChatMessageM) (input : String)
    (res : ApiResponseM ChatMessageM) :
    ∃ t, handleSubmitTurn msgs input res = msgs ++ t := by
  rcases res with ⟨s, d, err⟩
  match s, d with
  | true, some v =>
    exact ⟨[{ role := "user", content := input.trim },
      { role := "assistant", content := v.content }], by simp [handleSubmitTurn]⟩
  | true, none =>
    exact ⟨[{ role := "user", content := input.trim },
      { role := "assistant", content := errorReplyContent err }], by simp [handleSubmitTurn]⟩
  | false, d =>
    exact ⟨[{ role := "user", content := input.trim },
      { role := "assistant", content := errorReplyContent err }], by
        cases d <;> simp [handleSubmitTurn]⟩

theorem applySessionOp_append (msgs : List ChatMessageM) (op : SessionOp) :
    ∃ t, applySessionOp msgs op = msgs ++ t := by
  cases op with
  | loadHistory ok history =>
    by_cases hc : (ok && decide (0 < history.length)) = true
    · exact ⟨history, by simp [applySessionOp, hc]⟩
    · exact ⟨[], by simp [applySessionOp, hc]⟩
  | chatTurn input res =>
    by_cases hc : input.trim = ""
    · exact ⟨[], by simp [applySessionOp, hc]⟩
    · obtain ⟨t, ht⟩ := handleSubmitTurn_append msgs input res
      exact ⟨t, by simp [applySessionOp, hc, ht]⟩

theorem runSession_append :
    ∀ (ops : List SessionOp) (msgs : List ChatMessageM),
      ∃ t, runSession msgs ops = msgs ++ t
  | [], msgs => ⟨[], by simp [runSession]⟩
  | op :: ops, msgs => by
    obtain ⟨t₁, ht₁⟩ := applySessionOp_append msgs op
    obtain ⟨t₂, ht₂⟩ := runSession_append ops (applySessionOp msgs op)
    refine ⟨t₁ ++ t₂, ?_⟩
    have : runSession msgs (op :: ops) = runSession (applySessionOp msgs op) ops := rfl
    rw [this, ht₂, ht₁, List.append_assoc]

/-- Claim C6: the chat message sequence is append-only — every single state
update (history load, user message, assistant or error reply) extends the
list at the end, and after any sequence of session operations the previous
message list survives unchanged as a prefix, so no message's role, content or
position is ever modified or removed. -/
theorem session_messages_append_only (msgs : List ChatMessageM)
    (ops : List SessionOp) :
    (∀ (ms : List ChatMessageM) (op : SessionOp), ∃ t, applySessionOp ms op = ms ++ t) ∧
    (∃ tail, runSession msgs ops = msgs ++ tail) ∧
    (runSession msgs ops).take msgs.length = msgs := by
  refine ⟨applySessionOp_append, runSession_append ops msgs, ?_⟩
  obtain ⟨t, ht⟩ := runSession_append ops msgs
  rw [ht, List.take_left]

/-! ### Direct lookups -/

/-- Claim C7: a `/refs` or `/calls` lookup of a name that resolves to no
entity reaches the caller as an explicit failure — `success = false` with a
nonempty error message — which is distinguishable from a successful lookup
returning an empty (or any) result list, which has `success = true`. -/
theorem direct_lookup_not_found_is_explicit (refs : List ReferenceInfoM)
    (calls : List CallInfoM) :
    (getFunctionReferences (refsEndpoint false refs)).success = false ∧
    (∃ e, (getFunctionReferences (refsEndpoint false refs)).error = some e ∧ e ≠ "") ∧
    getFunctionReferences (refsEndpoint true refs) =
      { success := true, data := some refs, error := none } ∧
    (getFunctionCalls (callsEndpoint false calls)).success = false ∧
    (∃ e, (getFunctionCalls (callsEndpoint false calls)).error = some e ∧ e ≠ "") ∧
    getFunctionCalls (callsEndpoint true calls) =
      { success := true, data := some calls, error := none } := by
  refine ⟨rfl, ⟨"Entity not found", rfl, by decide⟩, rfl,
    rfl, ⟨"Entity not found", rfl, by decide⟩, rfl⟩

/-! ### Vector search -/

theorem searchLE_total (a b : String × Int) : (searchLE a b || searchLE b a) = true := by
  simp only [searchLE, Bool.or_eq_true, Bool.and_eq_true, decide_eq_true_eq, beq_iff_eq]
  rcases lt_trichotomy a.2 b.2 with h | h | h
  · exact Or.inr (Or.inl h)
  · rcases le_total a.1 b.1 with h1 | h1
    · exact Or.inl (Or.inr ⟨h, h1⟩)
    · exact Or.inr (Or.inr ⟨h.symm, h1⟩)
  · exact Or.inl (Or.inl h)

theorem searchLE_trans (a b c : String × Int) (hab : searchLE a b = true)
    (hbc : searchLE b c = true) : searchLE a c = true := by
  simp only [searchLE, Bool.or_eq_true, Bool.and_eq_true, decide_eq_true_eq,
    beq_iff_eq] at hab hbc ⊢
  rcases hab with h1 | ⟨h1, h1'⟩ <;> rcases hbc with h2 | ⟨h2, h2'⟩
  · exact Or.inl (lt_trans h2 h1)
  · exact Or.inl (by omega)
  · exact Or.inl (by omega)
  · exact Or.inr ⟨by omega, le_trans h1' h2'⟩

/-- Claim C8: for every query, every `k ≥ 1` and every index state,
`VectorIndex.search` returns at most `k` scored results, ordered non-increasing
by score with ties broken by entity id, and (being a pure function of the
index state and the query) two calls with identical arguments return identical
ordered output. -/
theorem vector_search_topk_sorted (embed : String → List Int)
    (idx : List VectorRecordM) (q : String) (k : Nat) (_hk : 1 ≤ k) :
    (searchVectorIndex embed idx q k).length ≤ k ∧
    (searchVectorIndex embed idx q k).Pairwise
      (fun a b => b.2 < a.2 ∨ (a.2 = b.2 ∧ a.1 ≤ b.1)) ∧
    searchVectorIndex embed idx q k = searchVectorIndex embed idx q k := by
  refine ⟨List.length_take_le _ _, ?_, rfl⟩
  have hs := @List.sorted_mergeSort _ searchLE searchLE_trans searchLE_total
    (idx.map fun r => (r.entityId, dotProduct (embed q) r.vec))
  have ht := hs.sublist (List.take_sublist k _)
  exact ht.imp fun h => by
    simpa only [searchLE, Bool.or_eq_true, Bool.and_eq_true, decide_eq_true_eq,
      beq_iff_eq] using h

theorem vector_search_topk_sorted_witness :
    (1 ≤ 2) ∧
    ((searchVectorIndex (fun _ => [1, 0])
        [⟨"b", [1, 0]⟩, ⟨"a", [1, 0]⟩, ⟨"c", [0, 5]⟩] "q" 2).length ≤ 2 ∧
      (searchVectorIndex (fun _ => [1, 0])
        [⟨"b", [1, 0]⟩, ⟨"a", [1, 0]⟩, ⟨"c", [0, 5]⟩] "q" 2).Pairwise
        (fun a b => b.2 < a.2 ∨ (a.2 = b.2 ∧ a.1 ≤ b.1)) ∧
      searchVectorIndex (fun _ => [1, 0])
          [⟨"b", [1, 0]⟩, ⟨"a", [1, 0]⟩, ⟨"c", [0, 5]⟩] "q" 2 =
        searchVectorIndex (fun _ => [1, 0])
          [⟨"b", [1, 0]⟩, ⟨"a", [1, 0]⟩, ⟨"c", [0, 5]⟩] "q" 2) :=
  ⟨by decide, vector_search_topk_sorted (fun _ => [1, 0])
    [⟨"b", [1, 0]⟩, ⟨"a", [1, 0]⟩, ⟨"c", [0, 5]⟩] "q" 2 (by decide)⟩

/-! ### Totality of the API client -/

theorem jsOrString_ne_empty (a : Option String) (b : String) (h : b ≠ "") :
    jsOrString a b ≠ "" := by
  cases a with
  | none => exact h
  | some s =>
    by_cases hs : s = ""
    · simp only [jsOrString, if_pos hs]
      exact h
    · simp only [jsOrString, if_neg hs]
      exact hs

theorem getErrorMessage_ne_empty (e : JsError) (h : errMessageNonempty e) :
    getErrorMessage e ≠ "" := by
  cases e with
  | axiosError detail dataMessage message =>
    simp only [errMessageNonempty] at h
    exact jsOrString_ne_empty _ _ (jsOrString_ne_empty _ _ h)
  | jsError message => simpa only [errMessageNonempty] using h
  | other => simp only [getErrorMessage]; decide

/-- Claim C9: every exported API-client function is total — its `try`/`catch`
wrapper always returns an `ApiResponse` in which either `success` is `true`
with the awaited data, or `success` is `false` with `error` set to the string
`getErrorMessage` produces, which is nonempty for every error the transports
raise (all of which carry a nonempty message). -/
theorem api_client_total (α : Type) (outcome : Except JsError α)
    (h : ∀ e, outcome = Except.error e → errMessageNonempty e) :
    (∃ a, outcome = Except.ok a ∧
      apiCall outcome = { success := true, data := some a, error := none }) ∨
    (∃ e, outcome = Except.error e ∧
      apiCall outcome =
        { success := false, data := none, error := some (getErrorMessage e) } ∧
      getErrorMessage e ≠ "") := by
  cases outcome with
  | ok a => exact Or.inl ⟨a, rfl, rfl⟩
  | error e => exact Or.inr ⟨e, rfl, rfl, getErrorMessage_ne_empty e (h e rfl)⟩

theorem api_client_total_witness :
    (∀ e, (Except.error (JsError.jsError "Network Error") : Except JsError Nat) =
        Except.error e → errMessageNonempty e) ∧
    ((∃ a, (Except.error (JsError.jsError "Network Error") : Except JsError Nat) =
        Except.ok a ∧
      apiCall (Except.error (JsError.jsError "Network Error") : Except JsError Nat) =
        { success := true, data := some a, error := none }) ∨
    (∃ e, (Except.error (JsError.jsError "Network Error") : Except JsError Nat) =
        Except.error e ∧
      apiCall (Except.error (JsError.jsError "Network Error") : Except JsError Nat) =
        { success := false, data := none, error := some (getErrorMessage e) } ∧
      getErrorMessage e ≠ "")) := by
  have hyp : ∀ e, (Except.error (JsError.jsError "Network Error") :
      Except JsError Nat) = Except.error e → errMessageNonempty e := by
    intro e he
    cases he
    simp only [errMessageNonempty]
    decide
  exact ⟨hyp, api_client_total Nat _ hyp⟩

/-! ### Middleware and layout -/

theorem charsPrefixOf_iff : ∀ (p l : List Char),
    charsPrefixOf p l = true ↔ ∃ t, l = p ++ t
  | [], l => by simp [charsPrefixOf]
  | a :: as, [] => by simp [charsPrefixOf]
  | a :: as, b :: bs => by
    rw [show charsPrefixOf (a :: as) (b :: bs) = (a == b && charsPrefixOf as bs) from rfl]
    rw [Bool.and_eq_true, beq_iff_eq, charsPrefixOf_iff as bs]
    constructor
    · rintro ⟨rfl, t, rfl⟩
      exact ⟨t, rfl⟩
    · rintro ⟨t, ht⟩
      injection ht with h1 h2
      exact ⟨h1.symm, t, h2⟩

theorem charsPrefixOf_append_self (p t : List Char) :
    charsPrefixOf p (p ++ t) = true :=
  (charsPrefixOf_iff p (p ++ t)).mpr ⟨t, rfl⟩

theorem matcherExcluded_dashboard (t : List Char) :
    matcherExcluded (dashboardPathChars ++ t) = false := by
  simp [matcherExcluded, dashboardPathChars, charsPrefixOf]

/-- Claim C10: every request whose path starts with `/dashboard` is covered by
the middleware matcher, and without an authenticated session the middleware
answers it with a redirect to `/` (the dashboard layout independently
redirecting unauthenticated users to `/`), while with a session the
middleware passes the request through unchanged and the layout renders. -/
theorem dashboard_requires_auth (path : List Char)
    (h : charsPrefixOf dashboardPathChars path = true) :
    matcherExcluded path = false ∧
    middlewareRedirect path false = some rootPathChars ∧
    middlewareRedirect path true = none ∧
    dashboardLayoutRedirect false = some rootPathChars ∧
    dashboardLayoutRedirect true = none := by
  obtain ⟨t, rfl⟩ := (charsPrefixOf_iff _ _).mp h
  refine ⟨matcherExcluded_dashboard t, ?_, ?_, rfl, rfl⟩
  · simp [middlewareRedirect, charsPrefixOf_append_self]
  · simp [middlewareRedirect]

theorem dashboard_requires_auth_witness :
    charsPrefixOf dashboardPathChars
      ['/', 'd', 'a', 's', 'h', 'b', 'o', 'a', 'r', 'd', '/', 'p', '1'] = true ∧
    (matcherExcluded ['/', 'd', 'a', 's', 'h', 'b', 'o', 'a', 'r', 'd', '/', 'p', '1'] = false ∧
      middlewareRedirect ['/', 'd', 'a', 's', 'h', 'b', 'o', 'a', 'r', 'd', '/', 'p', '1'] false =
        some rootPathChars ∧
      middlewareRedirect ['/', 'd', 'a', 's', 'h', 'b', 'o', 'a', 'r', 'd', '/', 'p', '1'] true =
        none ∧
      dashboardLayoutRedirect false = some rootPathChars ∧
      dashboardLayoutRedirect true = none) :=
  ⟨by decide, dashboard_requires_auth
    ['/', 'd', 'a', 's', 'h', 'b', 'o', 'a', 'r', 'd', '/', 'p', '1'] (by decide)⟩

end GitMate
